import Mathlib

/-!
Verification of the parallel k-d tree repository: a shallow embedding of the
process-topology helpers (putils.h), the finalize step of the tree greenhouse,
and the main driver, together with spec-modelled definitions for the parts of
the repository (builder, serializer, validation) whose sources are not present.
-/

/-! ## Machine-integer bounds (C `int`, 32-bit two's complement) -/

/-- Smallest value of the C `int` coordinate type (`std::numeric_limits<int>::min()`). -/
def INT_MIN : Int := -(2 ^ 31)

/-- Largest value of the C `int` coordinate type. -/
def INT_MAX : Int := 2 ^ 31 - 1

/-! ## ProcessTopology (putils.h) -/

/-- Embeds `compute_max_depth(n) = (int) log2((double) n)`.  For `1 ≤ n < 2^31`
the double-precision `log2` is correctly rounded and monotone, so truncating it
to `int` computes exactly `⌊log₂ n⌋ = Nat.log 2 n`. -/
def compute_max_depth (n_processes : Nat) : Nat :=
  Nat.log 2 n_processes

/-- Embeds `compute_n_surplus_processes(n, d) = n - (int) pow(2.0, (double) d)`;
`pow(2, d)` is exact in double for the relevant range. -/
def compute_n_surplus_processes (n_processes max_depth : Nat) : Int :=
  (n_processes : Int) - 2 ^ max_depth

/-- Embeds `compute_next_process_rank`.  The C body is
`(next_depth < max_depth + 1) * next_process_rank(next_depth) +
 (next_depth == max_depth + 1) * (rank < surplus_processes) *
 (n_processes - surplus_processes + rank)`,
with the boolean comparisons converted to 0/1 integers.  The function
`next_process_rank` is defined nowhere in the repository (the spec notes the
pairing "appears to reference itself without a visible base case"), so it is
taken as a parameter `g`; note that the C call passes only `next_depth`, so the
first summand cannot depend on `rank`.  The body also reads
`surplus_processes` while the declared parameter is `surpluss_processes`; the
obvious intent (the parameter) is used here. -/
def compute_next_process_rank (g : Int → Int)
    (rank max_depth next_depth surplus_processes n_processes : Int) : Int :=
  (if next_depth < max_depth + 1 then 1 else 0) * g next_depth +
    (if next_depth = max_depth + 1 then 1 else 0) *
      (if rank < surplus_processes then 1 else 0) *
        (n_processes - surplus_processes + rank)

/-! ## Theorems about ProcessTopology -/

/-- C4: for every worker count `n ≥ 1`, `compute_max_depth n` equals
`⌊log₂ n⌋` (stated both via the real logarithm and via the characterizing
power-of-two bounds), and `compute_max_depth 1 = 0`. -/
theorem compute_max_depth_eq_floor_log2 (n : Nat) (h : 1 ≤ n) :
    (⌊Real.logb 2 (n : ℝ)⌋ = compute_max_depth n) ∧
      2 ^ compute_max_depth n ≤ n ∧ n < 2 ^ (compute_max_depth n + 1) ∧
      compute_max_depth 1 = 0 := by
  have hn : n ≠ 0 := by omega
  refine ⟨?_, ?_, ?_, ?_⟩
  · have h1 : ⌊Real.logb ((2 : Nat) : ℝ) ((n : ℕ) : ℝ)⌋ = Int.log 2 ((n : ℕ) : ℝ) :=
      Real.floor_logb_natCast (by positivity)
    have h2 : Int.log 2 ((n : ℕ) : ℝ) = (Nat.log 2 n : Int) :=
      @Int.log_natCast ℝ _ _ 2 n
    simpa [compute_max_depth, h2] using h1
  · exact Nat.pow_log_le_self 2 hn
  · exact Nat.lt_pow_succ_log_self (by norm_num) n
  · simp [compute_max_depth]

/-- Witness for C4 at `n = 5`: `compute_max_depth 5 = 2`. -/
theorem compute_max_depth_eq_floor_log2_witness :
    (1 ≤ 5) ∧
      ((⌊Real.logb 2 ((5 : Nat) : ℝ)⌋ = compute_max_depth 5) ∧
        2 ^ compute_max_depth 5 ≤ 5 ∧ 5 < 2 ^ (compute_max_depth 5 + 1) ∧
        compute_max_depth 1 = 0) :=
  ⟨by decide, compute_max_depth_eq_floor_log2 5 (by decide)⟩

/-- C5: for every worker count `n ≥ 1` with `d = compute_max_depth n`, the
surplus is `n - 2^d` and satisfies `0 ≤ surplus < 2^d`, i.e.
`n = 2^d + surplus` with `0 ≤ surplus < 2^d`. -/
theorem compute_n_surplus_processes_spec (n : Nat) (h : 1 ≤ n) :
    compute_n_surplus_processes n (compute_max_depth n) =
        (n : Int) - 2 ^ compute_max_depth n ∧
      0 ≤ compute_n_surplus_processes n (compute_max_depth n) ∧
      compute_n_surplus_processes n (compute_max_depth n) <
        2 ^ compute_max_depth n := by
  have hn : n ≠ 0 := by omega
  have hlow : 2 ^ compute_max_depth n ≤ n := Nat.pow_log_le_self 2 hn
  have hhigh : n < 2 ^ (compute_max_depth n + 1) :=
    Nat.lt_pow_succ_log_self (by norm_num) n
  have hlow' : (2 : Int) ^ compute_max_depth n ≤ (n : Int) := by exact_mod_cast hlow
  have hhigh' : (n : Int) < 2 ^ compute_max_depth n * 2 := by
    have : (n : Int) < 2 ^ (compute_max_depth n + 1) := by exact_mod_cast hhigh
    calc (n : Int) < 2 ^ (compute_max_depth n + 1) := this
      _ = 2 ^ compute_max_depth n * 2 := by ring
  refine ⟨rfl, ?_, ?_⟩
  · unfold compute_n_surplus_processes
    omega
  · unfold compute_n_surplus_processes
    omega

/-- Witness for C5 at `n = 5`: surplus is `1` and `0 ≤ 1 < 2^2`. -/
theorem compute_n_surplus_processes_spec_witness :
    (1 ≤ 5) ∧
      (compute_n_surplus_processes 5 (compute_max_depth 5) =
          (5 : Int) - 2 ^ compute_max_depth 5 ∧
        0 ≤ compute_n_surplus_processes 5 (compute_max_depth 5) ∧
        compute_n_surplus_processes 5 (compute_max_depth 5) <
          2 ^ compute_max_depth 5) :=
  ⟨by decide, compute_n_surplus_processes_spec 5 (by decide)⟩

/-- C2: for `next_depth = max_depth + 1` and a surplus rank `rank < surplus`,
the partner is `n - surplus + rank`, whatever the missing `next_process_rank`
function `g` computes. -/
theorem compute_next_process_rank_surplus (g : Int → Int)
    (rank max_depth surplus n : Int) (h : rank < surplus) :
    compute_next_process_rank g rank max_depth (max_depth + 1) surplus n =
      n - surplus + rank := by
  simp [compute_next_process_rank, h]

/-- Witness for C2 at `n = 5`, `max_depth = 2`, `surplus = 1`, `rank = 0`:
the surplus worker 0 is folded onto rank `5 - 1 + 0 = 4`. -/
theorem compute_next_process_rank_surplus_witness :
    ((0 : Int) < 1) ∧
      compute_next_process_rank (fun _ => 0) 0 2 (2 + 1) 1 5 = 5 - 1 + 0 :=
  ⟨by decide, compute_next_process_rank_surplus (fun _ => 0) 0 2 1 5 (by decide)⟩

/-- C9: whenever neither pairing branch applies — `next_depth > max_depth + 1`,
or `next_depth = max_depth + 1` with `rank ≥ surplus` — the function returns
`0`, the rank of the coordinating worker, whatever `g` computes. -/
theorem compute_next_process_rank_default_zero (g : Int → Int)
    (rank max_depth next_depth surplus n : Int)
    (h : max_depth + 1 < next_depth ∨
      (next_depth = max_depth + 1 ∧ surplus ≤ rank)) :
    compute_next_process_rank g rank max_depth next_depth surplus n = 0 := by
  rcases h with h | ⟨heq, hr⟩
  · have h1 : ¬ next_depth < max_depth + 1 := by omega
    have h2 : ¬ next_depth = max_depth + 1 := by omega
    simp [compute_next_process_rank, h1, h2]
  · have h1 : ¬ next_depth < max_depth + 1 := by omega
    have h3 : ¬ rank < surplus := by omega
    simp [compute_next_process_rank, h1, heq, h3]

/-- Witness for C9: with `n = 5`, `max_depth = 2`, `surplus = 1`, the
non-surplus rank `3` at `next_depth = 3` gets partner `0`, and any rank at
`next_depth = 4 > max_depth + 1` gets partner `0`. -/
theorem compute_next_process_rank_default_zero_witness :
    ((2 : Int) + 1 < 4 ∨ ((4 : Int) = 2 + 1 ∧ (1 : Int) ≤ 3)) ∧
      compute_next_process_rank (fun _ => 7) 3 2 4 1 5 = 0 :=
  ⟨Or.inl (by decide),
    compute_next_process_rank_default_zero (fun _ => 7) 3 2 4 1 5
      (Or.inl (by decide))⟩

/-- C1 (refuted): with `n_processes = 2` (so `max_depth = 1`, `surplus = 0`)
and `next_depth = 1 ≤ max_depth`, both active workers 0 and 1 compute the same
partner `g 1` — the first branch passes only `next_depth` to the missing
`next_process_rank`, so its value cannot depend on `rank`.  Hence for every
possible implementation `g` the pairing has a collision on the active ranks
`{0, 1}` and is not a perfect matching. -/
theorem compute_next_process_rank_not_matching (g : Int → Int) :
    compute_next_process_rank g 0 1 1 0 2 = g 1 ∧
      compute_next_process_rank g 1 1 1 0 2 = g 1 ∧
      ∃ r₁ r₂ : Int, r₁ ≠ r₂ ∧ (0 ≤ r₁ ∧ r₁ < 2) ∧ (0 ≤ r₂ ∧ r₂ < 2) ∧
        compute_next_process_rank g r₁ 1 1 0 2 =
          compute_next_process_rank g r₂ 1 1 0 2 := by
  refine ⟨?_, ?_, 0, 1, by decide, by decide, by decide, ?_⟩ <;>
    simp [compute_next_process_rank]

/-- Witness for C1's refutation at the concrete implementation `g = fun _ => 0`. -/
theorem compute_next_process_rank_not_matching_witness :
    compute_next_process_rank (fun _ => 0) 0 1 1 0 2 = (fun _ => (0 : Int)) 1 ∧
      compute_next_process_rank (fun _ => 0) 1 1 1 0 2 = (fun _ => (0 : Int)) 1 ∧
      ∃ r₁ r₂ : Int, r₁ ≠ r₂ ∧ (0 ≤ r₁ ∧ r₁ < 2) ∧ (0 ≤ r₂ ∧ r₂ < 2) ∧
        compute_next_process_rank (fun _ => 0) r₁ 1 1 0 2 =
          compute_next_process_rank (fun _ => 0) r₂ 1 1 0 2 :=
  compute_next_process_rank_not_matching (fun _ => 0)

/-! ## The driver (main.cpp) -/

/-- Compile-time point count of the driver (`#define SIZE 6`). -/
def SIZE : Nat := 6

/-- Compile-time dimensionality of the driver (`#define DIMS 2`). -/
def DIMS : Nat := 2

/-- The flat coordinate array rank 0 allocates and fills:
`dt[2i] = 9 - i`, `dt[2i+1] = 1 + i` for `i < SIZE`. -/
def coordinatorData : List Int :=
  (List.range SIZE).flatMap (fun i => [9 - (i : Int), 1 + (i : Int)])

/-- The point data each rank holds when calling `generate_kd_tree`: rank 0
allocates and fills `dt`, every other rank leaves `dt = nullptr` (no points). -/
def mainPointData (rank : Int) : Option (List Int) :=
  if rank = 0 then some coordinatorData else none

/-- The full argument triple `(dt, size, dims)` each rank passes to
`generate_kd_tree(dt, size, DIMS)`; `size = SIZE` on every rank. -/
def mainBuildArgs (rank : Int) : Option (List Int) × Nat × Nat :=
  (mainPointData rank, SIZE, DIMS)

/-- The point set a rank actually supplies: the contents of `dt`, which is the
empty set when `dt` is the null pointer. -/
def suppliedPoints (rank : Int) : List Int :=
  (mainPointData rank).getD []

/-- C3: every rank passes the same `(size, dims)` configuration to the build
entry point, rank 0 supplies a non-empty point set, and every rank other than
0 supplies the empty point set (a null `dt`, hence length 0). -/
theorem main_noncoordinator_supplies_empty (rank : Int) (h : rank ≠ 0) :
    suppliedPoints rank = [] ∧ (suppliedPoints rank).length = 0 ∧
      suppliedPoints 0 ≠ [] ∧
      (mainBuildArgs rank).2 = (mainBuildArgs 0).2 := by
  refine ⟨?_, ?_, by decide, rfl⟩ <;>
    simp [suppliedPoints, mainPointData, h]

/-- Witness for C3 at rank 1. -/
theorem main_noncoordinator_supplies_empty_witness :
    ((1 : Int) ≠ 0) ∧
      (suppliedPoints 1 = [] ∧ (suppliedPoints 1).length = 0 ∧
        suppliedPoints 0 ≠ [] ∧
        (mainBuildArgs 1).2 = (mainBuildArgs 0).2) :=
  ⟨by decide, main_noncoordinator_supplies_empty 1 (by decide)⟩

/-! ## Configuration validation (spec-modelled) -/

/-- Modelled from the spec: the build entry point `generate_kd_tree` is not
under src/ (only its caller in main.cpp is).  Per the error-handling design, a
non-positive dims or a negative point count is rejected before any worker
starts building; the build steps are abstracted as the function `build`, which
is invoked only on a valid configuration. -/
def generate_kd_tree {α : Type} (build : Option (List Int) → Int → Int → α)
    (points : Option (List Int)) (n_points dims : Int) : Option α :=
  if 0 < dims ∧ 0 ≤ n_points then some (build points n_points dims) else none

/-- C8: on a configuration with non-positive dims or a negative point count,
the entry point rejects (returns no tree) and no build step is executed — the
result is `none` whatever the build function would compute. -/
theorem generate_kd_tree_rejects_invalid {α : Type}
    (build : Option (List Int) → Int → Int → α)
    (points : Option (List Int)) (n_points dims : Int)
    (h : dims ≤ 0 ∨ n_points < 0) :
    generate_kd_tree build points n_points dims = none := by
  unfold generate_kd_tree
  rw [if_neg]
  omega

/-- Witness for C8 at `dims = 0`, `n_points = 5`. -/
theorem generate_kd_tree_rejects_invalid_witness :
    ((0 : Int) ≤ 0 ∨ (5 : Int) < 0) ∧
      generate_kd_tree (fun _ _ _ => (0 : Nat)) none 5 0 = none :=
  ⟨Or.inl (by decide),
    generate_kd_tree_rejects_invalid (fun _ _ _ => (0 : Nat)) none 5 0
      (Or.inl (by decide))⟩

/-! ## Trees and the serialization sentinel -/

/-- The k-d tree node type: `KNode*` with `nullptr` modelled as `nil` (an
absent node / absent child), a live node carrying its coordinate vector and
exclusively owned left/right subtrees. -/
inductive KTree where
  | nil : KTree
  | node : List Int → KTree → KTree → KTree
deriving DecidableEq

/-- Number of materialized nodes of a tree. -/
def ktree_size : KTree → Nat
  | .nil => 0
  | .node _ l r => 1 + ktree_size l + ktree_size r

/-- Depth (number of levels) of a tree. -/
def ktree_depth : KTree → Nat
  | .nil => 0
  | .node _ l r => 1 + max (ktree_depth l) (ktree_depth r)

/-- The reserved sentinel marking an absent node in the flat encoding.  Its
defining header is not under src/, but main.cpp's `print_node` tests every
leading coordinate against `std::numeric_limits<int>::min()`, fixing the
value: the numeric minimum of the `int` coordinate type. -/
def EMPTY_PLACEHOLDER : Int := INT_MIN

/-! ## The greenhouse state and finalize (kdtree.cpp fragment) -/

/-- The `KDTreeGreenhouse` object state: the fields `finalize` reads or writes
(`serial_tree`, an optional-point array; `serial_tree_size`; `n_components`;
`grown_kdtree_size`), with every remaining field of the class abstracted into
`others : ρ`. -/
structure KDTreeGreenhouse (ρ : Type) where
  serial_tree : List (Option (List Int))
  serial_tree_size : Nat
  n_components : Nat
  grown_kdtree_size : Nat
  others : ρ

/-- Modelled from the spec: `unpack_optional_array` is not under src/.  It
produces the externally consumable flat array in the wire encoding: the first
`size` entries of the optional-point array are flattened, a present entry
contributing its `n_components` coordinates and an absent entry becoming
`n_components` copies of the placeholder. -/
def unpack_optional_array (arr : List (Option (List Int)))
    (size n_components : Nat) (placeholder : Int) : List Int :=
  (arr.take size).flatMap
    (fun o => o.getD (List.replicate n_components placeholder))

/-- Embeds `KDTreeGreenhouse::finalize()`: assigns `serial_tree_size` to
`grown_kdtree_size` and returns
`unpack_optional_array(serial_tree, serial_tree_size, n_components,
EMPTY_PLACEHOLDER)`.  The updated object state is returned alongside the
result. -/
def KDTreeGreenhouse.finalize {ρ : Type} (s : KDTreeGreenhouse ρ) :
    KDTreeGreenhouse ρ × List Int :=
  ({ s with grown_kdtree_size := s.serial_tree_size },
    unpack_optional_array s.serial_tree s.serial_tree_size s.n_components
      EMPTY_PLACEHOLDER)

/-- C10: `finalize` assigns `serial_tree_size` to `grown_kdtree_size`, leaves
every other field of the builder state unchanged, and its return value is
computed only from `serial_tree`, `serial_tree_size`, `n_components` and the
sentinel constant: two states agreeing on those three fields yield identical
return values. -/
theorem finalize_frame {ρ σ : Type} (s : KDTreeGreenhouse ρ) :
    s.finalize.1.grown_kdtree_size = s.serial_tree_size ∧
      s.finalize.1.serial_tree = s.serial_tree ∧
      s.finalize.1.serial_tree_size = s.serial_tree_size ∧
      s.finalize.1.n_components = s.n_components ∧
      s.finalize.1.others = s.others ∧
      ∀ t : KDTreeGreenhouse σ,
        t.serial_tree = s.serial_tree →
          t.serial_tree_size = s.serial_tree_size →
            t.n_components = s.n_components →
              t.finalize.2 = s.finalize.2 := by
  refine ⟨rfl, rfl, rfl, rfl, rfl, ?_⟩
  intro t h1 h2 h3
  simp [KDTreeGreenhouse.finalize, h1, h2, h3]

/-- Witness for C10 at a concrete state (one absent entry, two components):
two states differing only in `others` and `grown_kdtree_size` give the same
return value. -/
theorem finalize_frame_witness :
    (KDTreeGreenhouse.finalize ⟨[none], 1, 2, 7, (0 : Nat)⟩).1.grown_kdtree_size
        = 1 ∧
      (KDTreeGreenhouse.finalize ⟨[none], 1, 2, 7, (0 : Nat)⟩).1.serial_tree
        = [none] ∧
      (KDTreeGreenhouse.finalize ⟨[none], 1, 2, 7, (0 : Nat)⟩).1.serial_tree_size
        = 1 ∧
      (KDTreeGreenhouse.finalize ⟨[none], 1, 2, 7, (0 : Nat)⟩).1.n_components
        = 2 ∧
      (KDTreeGreenhouse.finalize ⟨[none], 1, 2, 7, (0 : Nat)⟩).1.others = 0 ∧
      ∀ t : KDTreeGreenhouse Bool,
        t.serial_tree = [none] → t.serial_tree_size = 1 → t.n_components = 2 →
          t.finalize.2 =
            (KDTreeGreenhouse.finalize ⟨[none], 1, 2, 7, (0 : Nat)⟩).2 :=
  finalize_frame ⟨[none], 1, 2, 7, (0 : Nat)⟩

/-! ## Wire-format decoding (spec-modelled) -/

/-- The i-th dims-sized coordinate group of a flat sequence. -/
def unpack_group (flat : List Int) (dims i : Nat) : List Int :=
  (flat.drop (i * dims)).take dims

/-- Modelled from the spec: the subtree unpacker reversing the wire encoding
is not under src/.  The flat sequence holds dims-sized groups in the implicit
binary-heap level order (the children of group `i` sit at groups `2i+1` and
`2i+2`); a group whose first coordinate equals the sentinel is treated as an
absent node, terminating that branch so that none of its encoded descendants
are materialized. -/
def unpack_tree (flat : List Int) (dims : Nat) (i : Nat) : KTree :=
  if dims = 0 ∨ flat.length ≤ i * dims then .nil
  else if (unpack_group flat dims i).headD EMPTY_PLACEHOLDER = EMPTY_PLACEHOLDER
    then .nil
  else
    .node (unpack_group flat dims i)
      (unpack_tree flat dims (2 * i + 1)) (unpack_tree flat dims (2 * i + 2))
termination_by flat.length - i * dims
decreasing_by
  all_goals
    rename_i h _
    rw [not_or, not_le] at h
    obtain ⟨hd, hi⟩ := h
    have hd1 : 1 ≤ dims := Nat.one_le_iff_ne_zero.mpr hd
    have e1 : (2 * i + 1) * dims = 2 * (i * dims) + dims := by ring
    have e2 : (2 * i + 2) * dims = 2 * (i * dims) + 2 * dims := by ring
    omega

/-- C7: the sentinel is the numeric minimum of the coordinate type (no smaller
`int` coordinate exists), and any dims-sized group whose leading coordinate
equals the sentinel decodes to an absent node: the unpacked subtree at that
group is `nil` and materializes zero nodes, whatever data its descendant
groups hold. -/
theorem unpack_tree_sentinel_absent (flat : List Int) (dims i : Nat)
    (hsent : (unpack_group flat dims i).headD EMPTY_PLACEHOLDER
      = EMPTY_PLACEHOLDER) :
    EMPTY_PLACEHOLDER = INT_MIN ∧
      (∀ x : Int, INT_MIN ≤ x → x ≤ INT_MAX → EMPTY_PLACEHOLDER ≤ x) ∧
      unpack_tree flat dims i = KTree.nil ∧
      ktree_size (unpack_tree flat dims i) = 0 := by
  have hnil : unpack_tree flat dims i = KTree.nil := by
    unfold unpack_tree
    by_cases hcase : dims = 0 ∨ flat.length ≤ i * dims
    · rw [if_pos hcase]
    · rw [if_neg hcase, if_pos hsent]
  exact ⟨rfl, fun x h1 _ => h1, hnil, by rw [hnil]; rfl⟩

/-- Witness for C7: `flat = [sentinel, 0, 5, 6, 7, 8]` with `dims = 2` — the
root group leads with the sentinel, so the decoded tree is absent even though
the two descendant groups `(5,6)` and `(7,8)` hold real coordinates. -/
theorem unpack_tree_sentinel_absent_witness :
    ((unpack_group [EMPTY_PLACEHOLDER, 0, 5, 6, 7, 8] 2 0).headD
        EMPTY_PLACEHOLDER = EMPTY_PLACEHOLDER) ∧
      (EMPTY_PLACEHOLDER = INT_MIN ∧
        (∀ x : Int, INT_MIN ≤ x → x ≤ INT_MAX → EMPTY_PLACEHOLDER ≤ x) ∧
        unpack_tree [EMPTY_PLACEHOLDER, 0, 5, 6, 7, 8] 2 0 = KTree.nil ∧
        ktree_size (unpack_tree [EMPTY_PLACEHOLDER, 0, 5, 6, 7, 8] 2 0) = 0) :=
  ⟨rfl, unpack_tree_sentinel_absent [EMPTY_PLACEHOLDER, 0, 5, 6, 7, 8] 2 0 rfl⟩

/-! ## The build and pack phases (spec-modelled) -/

/-- Coordinate of a point along the split dimension `depth mod dims`. -/
def splitCoord (dims depth : Nat) (p : List Int) : Int :=
  p.getD (depth % dims) 0

/-- Modelled from the spec: the DistributedKdTreeBuilder recursion is not
under src/.  This is its worker-count-invariant functional result, the
sequential recursion of the design: an empty subset produces no node
(absent child); otherwise the points are ordered stably by the coordinate at
split dimension `depth mod dims` (stability = ties broken by original input
order), the lower median becomes the node's coordinate vector, and the points
below / above it in that order form the left / right subtrees. -/
def build_kd_tree (dims : Nat) (points : List (List Int)) (depth : Nat) :
    KTree :=
  match points with
  | [] => .nil
  | p :: ps =>
    let sorted := (p :: ps).insertionSort
      (fun q r => splitCoord dims depth q ≤ splitCoord dims depth r)
    let m := ((p :: ps).length - 1) / 2
    .node (sorted.getD m [])
      (build_kd_tree dims (sorted.take m) (depth + 1))
      (build_kd_tree dims (sorted.drop (m + 1)) (depth + 1))
termination_by points.length
decreasing_by
  · simp only [List.length_take, List.length_insertionSort, List.length_cons]
    omega
  · simp only [List.length_drop, List.length_insertionSort, List.length_cons]
    omega

/-- One level step of the fixed-shape flattening: each slot contributes its
two child slots, an absent slot contributing two absent child slots. -/
def expandLevel (ts : List KTree) : List KTree :=
  ts.flatMap (fun t => match t with
    | .nil => [.nil, .nil]
    | .node _ l r => [l, r])

/-- The slots of level `ℓ` of a tree in the fixed-shape level-order layout. -/
def levelSlots (t : KTree) : Nat → List KTree
  | 0 => [t]
  | ℓ + 1 => expandLevel (levelSlots t ℓ)

/-- The optional entry a slot contributes: its coordinate vector, or absent. -/
def rootEntry : KTree → Option (List Int)
  | .nil => none
  | .node d _ _ => some d

/-- Modelled from the spec: the packer is not under src/.  A subtree is
flattened level by level down to its own depth into optional entries (the
entries which finalize's `unpack_optional_array` later turns into dims-sized
groups, absent entries becoming sentinel groups); an absent tree has depth 0
and packs to the empty sequence. -/
def pack_tree (t : KTree) : List (Option (List Int)) :=
  (List.range (ktree_depth t)).flatMap
    (fun ℓ => (levelSlots t ℓ).map rootEntry)

/-- Modelled from the spec: `generate_kd_tree` / the greenhouse growing phase
is not under src/.  The coordinating worker builds the (worker-count-
invariant) tree from its point set, packs it, and records the packed length
as `serial_tree_size`, leaving `grown_kdtree_size` to be set by `finalize`. -/
def grow_kd_tree {ρ : Type} (points : List (List Int)) (dims : Nat)
    (others : ρ) : KDTreeGreenhouse ρ :=
  let st := pack_tree (build_kd_tree dims points 0)
  { serial_tree := st, serial_tree_size := st.length, n_components := dims,
    grown_kdtree_size := 0, others := others }

/-- C6: for an empty input point set (and any positive dims), the build is not
rejected by the configuration check (it succeeds), the root is absent, and the
coordinating worker's `finalize` returns the empty sequence with reported size
0. -/
theorem kd_tree_empty_input {ρ : Type} (dims : Nat) (others : ρ)
    (hd : 0 < dims) :
    build_kd_tree dims [] 0 = KTree.nil ∧
      generate_kd_tree (fun _ _ _ => grow_kd_tree [] dims others) none 0
          (dims : Int) = some (grow_kd_tree [] dims others) ∧
      (grow_kd_tree [] dims others).finalize.2 = [] ∧
      (grow_kd_tree [] dims others).finalize.1.grown_kdtree_size = 0 := by
  have hbuild : build_kd_tree dims [] 0 = KTree.nil := by
    unfold build_kd_tree
    rfl
  have hpack : pack_tree (build_kd_tree dims [] 0) = [] := by
    rw [hbuild]
    rfl
  have hgrow : grow_kd_tree ([] : List (List Int)) dims others
      = ⟨[], 0, dims, 0, others⟩ := by
    simp [grow_kd_tree, hpack]
  refine ⟨hbuild, ?_, ?_, ?_⟩
  · have hc : (0 : Int) < (dims : Int) ∧ (0 : Int) ≤ 0 :=
      ⟨by exact_mod_cast hd, le_refl 0⟩
    unfold generate_kd_tree
    rw [if_pos hc]
  · rw [hgrow]
    rfl
  · rw [hgrow]
    rfl

/-- Witness for C6 at `dims = 2`: the empty input yields an absent root and an
empty finalized sequence. -/
theorem kd_tree_empty_input_witness :
    (0 < 2) ∧
      (build_kd_tree 2 [] 0 = KTree.nil ∧
        generate_kd_tree (fun _ _ _ => grow_kd_tree [] 2 (0 : Nat)) none 0
            ((2 : Nat) : Int) = some (grow_kd_tree [] 2 (0 : Nat)) ∧
        (grow_kd_tree [] 2 (0 : Nat)).finalize.2 = [] ∧
        (grow_kd_tree [] 2 (0 : Nat)).finalize.1.grown_kdtree_size = 0) :=
  ⟨by decide, kd_tree_empty_input 2 (0 : Nat) (by decide)⟩
